import Mathlib

/-!
Verification of the mysky weather application core.

This file gives a shallow embedding of the data model and the algorithms of
the repository (the timeseries cache, the `useWeather` fetch/cancellation
hook, day bucketing, the per-day aggregates, precipitation-type resolution,
air-quality banding, the weather-code table and the line-chart scaler), and
proves the specified properties about them.

Numeric conventions: epoch-millisecond timestamps are `Int`; finite metric
values are `Rat`; where IEEE special values (NaN / Infinity) are observable
in the program, the JavaScript number is modelled by the inductive `JsNum`;
wind-direction trigonometry is modelled over `Real`.
-/

namespace Mysky

/-! ### TimeseriesCache (`src/services/cache.ts`) -/

structure CacheEntry (α : Type) where
  data : α
  timestamp : ℤ

/-- The module-level `Map<string, CacheEntry>` of `cache.ts`, as a key-indexed
partial map. -/
abbrev Cache (α : Type) : Type := String → Option (CacheEntry α)

def emptyCache {α : Type} : Cache α := fun _ => none

/-- `cache.delete(key)`. -/
def cacheDelete {α : Type} (c : Cache α) (locationId : String) : Cache α :=
  fun k => if k = locationId then none else c k

/-- `const CACHE_DURATION = 10 * 60 * 1000`. -/
def CACHE_DURATION : ℤ := 10 * 60 * 1000

/-- `getCachedWeather` of `cache.ts`: returns the cached bundle when fresh,
deletes the entry and returns `undefined` when `now - entry.timestamp >
CACHE_DURATION`.  The mutation of the module map is returned as the second
component. -/
def getCachedWeather {α : Type} (c : Cache α) (locationId : String) (now : ℤ) :
    Option α × Cache α :=
  match c locationId with
  | none => (none, c)
  | some entry =>
    if now - entry.timestamp > CACHE_DURATION then
      (none, cacheDelete c locationId)
    else
      (some entry.data, c)

/-- `setCachedWeather` of `cache.ts`: unconditionally overwrites the entry,
stamping the current time. -/
def setCachedWeather {α : Type} (c : Cache α) (locationId : String) (data : α)
    (now : ℤ) : Cache α :=
  fun k => if k = locationId then some ⟨data, now⟩ else c k

/-! ### Precipitation-type resolution (`App.tsx`) -/

structure PrecipitationSource where
  precipitation : ℚ
  rain : ℚ
  showers : ℚ
  snowfall : ℚ
deriving DecidableEq

structure PrecipitationTypeConfig where
  key : String
  label : String
  color : String
  accessor : PrecipitationSource → ℚ

/-- `PRECIP_TYPE_CONFIG` of `App.tsx` (rain, showers, snowfall, in order). -/
def PRECIP_TYPE_CONFIG : List PrecipitationTypeConfig :=
  [⟨"rain", "Rain", "#0a84ff", fun source => source.rain⟩,
   ⟨"showers", "Showers", "#5ac8fa", fun source => source.showers⟩,
   ⟨"snowfall", "Snow", "#bf5af2", fun source => source.snowfall⟩]

structure ResolvedPrecipitationType where
  key : String
  label : String
  color : String
  amount : ℚ
deriving DecidableEq

/-- The `PRECIP_DRY_TYPE` spread with `amount: 0`. -/
def precipDry : ResolvedPrecipitationType := ⟨"dry", "No precip.", "#8e8e93", 0⟩

/-- `resolvePrecipitationType` of `App.tsx`. -/
def resolvePrecipitationType (source : PrecipitationSource) :
    ResolvedPrecipitationType :=
  let resolved := PRECIP_TYPE_CONFIG.foldl
    (fun resolved t =>
      if t.accessor source > resolved.amount then
        ⟨t.key, t.label, t.color, t.accessor source⟩
      else resolved)
    precipDry
  if resolved.amount > 0 then resolved
  else if source.precipitation > 0 then
    ⟨"mixed", "Mixed", "#ffd60a", source.precipitation⟩
  else resolved

/-! ### JavaScript numbers, rounding, air-quality banding (`App.tsx`) -/

/-- A JavaScript `number` as observed by the code under verification: either a
finite value, `NaN`, or a signed infinity. -/
inductive JsNum where
  | nan : JsNum
  | inf : JsNum
  | ninf : JsNum
  | num (q : ℚ) : JsNum
deriving DecidableEq

/-- JavaScript `+` on numbers (the fragment reachable here). -/
def jsAdd : JsNum → JsNum → JsNum
  | .nan, _ => .nan
  | _, .nan => .nan
  | .inf, .ninf => .nan
  | .ninf, .inf => .nan
  | .inf, _ => .inf
  | _, .inf => .inf
  | .ninf, _ => .ninf
  | _, .ninf => .ninf
  | .num a, .num b => .num (a + b)

/-- JavaScript `/` on numbers (the fragment reachable here; `-0` is
identified with `0`). -/
def jsDiv : JsNum → JsNum → JsNum
  | .nan, _ => .nan
  | _, .nan => .nan
  | .inf, .inf => .nan
  | .inf, .ninf => .nan
  | .ninf, .inf => .nan
  | .ninf, .ninf => .nan
  | .inf, .num b => if 0 ≤ b then .inf else .ninf
  | .ninf, .num b => if 0 ≤ b then .ninf else .inf
  | .num _, .inf => .num 0
  | .num _, .ninf => .num 0
  | .num a, .num b =>
    if b = 0 then (if a = 0 then .nan else if 0 < a then .inf else .ninf)
    else .num (a / b)

/-- Binary `Math.min` (NaN-propagating). -/
def jsmin : JsNum → JsNum → JsNum
  | .nan, _ => .nan
  | _, .nan => .nan
  | .ninf, _ => .ninf
  | _, .ninf => .ninf
  | .inf, b => b
  | a, .inf => a
  | .num a, .num b => .num (min a b)

/-- Binary `Math.max` (NaN-propagating). -/
def jsmax : JsNum → JsNum → JsNum
  | .nan, _ => .nan
  | _, .nan => .nan
  | .inf, _ => .inf
  | _, .inf => .inf
  | .ninf, b => b
  | a, .ninf => a
  | .num a, .num b => .num (max a b)

/-- `Math.min(...values)`: the fold starts from `Infinity`, so the spread over
an empty array yields `Infinity`. -/
def jsMinList (values : List JsNum) : JsNum := values.foldl jsmin .inf

/-- `Math.max(...values)`: the fold starts from `-Infinity`. -/
def jsMaxList (values : List JsNum) : JsNum := values.foldl jsmax .ninf

/-- `averageArray` of `App.tsx`: `0` for an empty array, otherwise
`reduce((sum, val) => sum + val, 0) / length`. -/
def averageArray (values : List JsNum) : JsNum :=
  if values = [] then .num 0
  else jsDiv (values.foldl jsAdd (.num 0)) (.num values.length)

/-- `sumArray` of `App.tsx`. -/
def sumArray (values : List JsNum) : JsNum := values.foldl jsAdd (.num 0)

/-- `Math.round` on a finite value: round half toward positive infinity. -/
def jsRound (q : ℚ) : ℤ := (q + 1 / 2).floor

/-- `value.toFixed(1)` for a finite value. -/
def toFixed1 (q : ℚ) : String :=
  let m : ℤ := (|q| * 10 + 1 / 2).floor
  (if q < 0 ∧ m ≠ 0 then "-" else "") ++ toString (m / 10) ++ "." ++ toString (m % 10)

/-- Rendering of a JavaScript number by string interpolation / `toFixed`,
split on the special values. -/
def jsNumToFixed1 : JsNum → String
  | .nan => "NaN"
  | .inf => "Infinity"
  | .ninf => "-Infinity"
  | .num q => toFixed1 q

/-- `formatTemperature` of `App.tsx` (`undefined`/`NaN` guard, then
`toFixed(1) + "°C"`). -/
def formatTemperature : Option JsNum → String
  | none => "—"
  | some .nan => "—"
  | some v => jsNumToFixed1 v ++ "°C"

/-- `formatPercentage` of `App.tsx`. -/
def formatPercentage : Option JsNum → String
  | none => "—"
  | some .nan => "—"
  | some .inf => "Infinity%"
  | some .ninf => "-Infinity%"
  | some (.num q) => toString (jsRound q) ++ "%"

/-- `formatAQI` of `App.tsx`: `undefined`/`NaN` yield the em-dash sentinel,
otherwise the index is rounded and banded by the fixed thresholds
20/40/60/80/100 with inclusive upper bounds. -/
def formatAQI : Option JsNum → String
  | none => "—"
  | some .nan => "—"
  | some .inf => "Infinity (Extremely Poor)"
  | some .ninf => "-Infinity (Good)"
  | some (.num q) =>
    let aqi := jsRound q
    if aqi ≤ 20 then toString aqi ++ " (Good)"
    else if aqi ≤ 40 then toString aqi ++ " (Fair)"
    else if aqi ≤ 60 then toString aqi ++ " (Moderate)"
    else if aqi ≤ 80 then toString aqi ++ " (Poor)"
    else if aqi ≤ 100 then toString aqi ++ " (Very Poor)"
    else toString aqi ++ " (Extremely Poor)"

/-- `getAQIColor` of `App.tsx`: same guards and thresholds, returning the
band's display color. -/
def getAQIColor : Option JsNum → String
  | none => "#8e8e93"
  | some .nan => "#8e8e93"
  | some .inf => "#d32f2f"
  | some .ninf => "#74c476"
  | some (.num q) =>
    let aqi := jsRound q
    if aqi ≤ 20 then "#74c476"
    else if aqi ≤ 40 then "#41ab5d"
    else if aqi ≤ 60 then "#ffd54f"
    else if aqi ≤ 80 then "#ffb74d"
    else if aqi ≤ 100 then "#ff7043"
    else "#d32f2f"

/-! ### WMO weather-code table (`src/utils/weatherCodes.ts`) -/

structure WeatherCondition where
  code : ℚ
  description : String
  icon : String
deriving DecidableEq

/-- The `WEATHER_CODES` record, as the list of its key/value pairs. -/
def WEATHER_CODES : List (ℚ × WeatherCondition) :=
  [(0, ⟨0, "Clear sky", "☀️"⟩),
   (1, ⟨1, "Mainly clear", "🌤️"⟩),
   (2, ⟨2, "Partly cloudy", "⛅"⟩),
   (3, ⟨3, "Overcast", "☁️"⟩),
   (45, ⟨45, "Fog", "🌫️"⟩),
   (48, ⟨48, "Depositing rime fog", "🌫️"⟩),
   (51, ⟨51, "Light drizzle", "🌦️"⟩),
   (53, ⟨53, "Moderate drizzle", "🌦️"⟩),
   (55, ⟨55, "Dense drizzle", "🌦️"⟩),
   (56, ⟨56, "Light freezing drizzle", "🌨️"⟩),
   (57, ⟨57, "Dense freezing drizzle", "🌨️"⟩),
   (61, ⟨61, "Slight rain", "🌧️"⟩),
   (63, ⟨63, "Moderate rain", "🌧️"⟩),
   (65, ⟨65, "Heavy rain", "⛈️"⟩),
   (66, ⟨66, "Light freezing rain", "🌨️"⟩),
   (67, ⟨67, "Heavy freezing rain", "🌨️"⟩),
   (71, ⟨71, "Slight snow fall", "🌨️"⟩),
   (73, ⟨73, "Moderate snow fall", "❄️"⟩),
   (75, ⟨75, "Heavy snow fall", "❄️"⟩),
   (77, ⟨77, "Snow grains", "🌨️"⟩),
   (80, ⟨80, "Slight rain showers", "🌦️"⟩),
   (81, ⟨81, "Moderate rain showers", "🌧️"⟩),
   (82, ⟨82, "Violent rain showers", "⛈️"⟩),
   (85, ⟨85, "Slight snow showers", "🌨️"⟩),
   (86, ⟨86, "Heavy snow showers", "❄️"⟩),
   (95, ⟨95, "Thunderstorm", "⛈️"⟩),
   (96, ⟨96, "Thunderstorm with slight hail", "⛈️"⟩),
   (99, ⟨99, "Thunderstorm with heavy hail", "⛈️"⟩)]

/-- Indexing `WEATHER_CODES[code]`. -/
def lookupWeatherCode (code : ℚ) : Option WeatherCondition :=
  (WEATHER_CODES.find? (fun e => e.1 = code)).map Prod.snd

/-- `getWeatherCondition` of `weatherCodes.ts`: table entry, or the fallback
condition carrying the original code. -/
def getWeatherCondition (code : ℚ) : WeatherCondition :=
  match lookupWeatherCode code with
  | some c => c
  | none => ⟨code, "Unknown", "❓"⟩

/-- `formatWeatherCode` of `weatherCodes.ts`. -/
def formatWeatherCode (code : ℚ) : String :=
  let condition := getWeatherCondition code
  condition.icon ++ " " ++ condition.description ++ " (" ++ toString code ++ ")"

/-! ### LineChart scaling (`src/components/LineChart.tsx`)

The component returns early on an empty point list, so the scaling code below
only ever runs on a non-empty list of finite values. -/

/-- `Math.min(...values)` over the non-empty combined value list. -/
def listMin : List ℚ → ℚ
  | [] => 0
  | v :: vs => vs.foldl min v

/-- `Math.max(...values)` over the non-empty combined value list. -/
def listMax : List ℚ → ℚ
  | [] => 0
  | v :: vs => vs.foldl max v

/-- The `min`/`max` scale range of `LineChart`: the degenerate flat branch
(widen by 1, or upper bound 1 for a flat 0), the 10%-padding branch, and the
final clamp of a negative lower bound to 0 when the raw minimum was
non-negative. -/
def chartScale (values : List ℚ) : ℚ × ℚ :=
  let rawMin := listMin values
  let rawMax := listMax values
  let mm : ℚ × ℚ :=
    if rawMin = rawMax then
      if rawMin = 0 then (rawMin, 1) else (rawMin - 1, rawMax + 1)
    else
      let paddingRange := (rawMax - rawMin) * (1 / 10)
      (rawMin - paddingRange, rawMax + paddingRange)
  if mm.1 < 0 ∧ 0 ≤ rawMin then (0, mm.2) else mm

/-- `valueToY` of `LineChart`: clamp the value into the scale range, divide by
`max - min || 1`, and map top-down onto the band
`[paddingTop, paddingTop + chartHeight]`. -/
def valueToY (values : List ℚ) (paddingTop chartHeight : ℚ) (value : ℚ) : ℚ :=
  let mn := (chartScale values).1
  let mx := (chartScale values).2
  let clampedValue := min (max value mn) mx
  let ratio := (clampedValue - mn) / (if mx - mn = 0 then 1 else mx - mn)
  paddingTop + chartHeight - ratio * chartHeight

/-! ### The `useWeather` hook (`src/hooks/useWeather.ts`)

The hook runs on the single-threaded React event loop, so its behaviour is a
sequence of atomic steps: the `setLocation` callback, the `load` body up to
the `await`, and the post-`await` continuation of a settling fetch.
`AbortController`s are modelled by generation tokens: `ref` is
`abortControllerRef.current`, `aborted` is the set of tokens whose
controller's `abort()` has been called, and `nextTok` allocates fresh
tokens. -/

structure Location where
  id : String
  name : String
  latitude : ℚ
  longitude : ℚ
  timezone : String
deriving DecidableEq

/-- The reactive state owned by `useWeather`, together with the module cache
it reads and writes. -/
structure HookState (WD : Type) where
  data : Option WD
  loading : Bool
  error : Option String
  location : Option Location
  ref : Option ℕ
  aborted : List ℕ
  nextTok : ℕ
  cache : Cache WD

/-- The outcome with which the `fetchWeather` promise settles. -/
inductive FetchOutcome (WD : Type) where
  | resolve (result : WD) : FetchOutcome WD
  | reject (msg : String) : FetchOutcome WD

/-- The `setLocation` callback of `useWeather`: abort and clear any previous
controller, store the new location, and either enter loading or clear the
whole state. -/
def hookSetLocation {WD : Type} (st : HookState WD) (next : Option Location) :
    HookState WD :=
  let st1 :=
    match st.ref with
    | some t => { st with aborted := t :: st.aborted, ref := none }
    | none => st
  match next with
  | some _ => { st1 with location := next, loading := true }
  | none =>
    { st1 with location := none, data := none, loading := false, error := none }

/-- The `load` body of `useWeather` up to the `await`: clear state when no
location is set; otherwise abort any pending request, consult the cache
(whose read may evict a stale entry), short-circuit on a hit, and on a miss
enter loading and start a fetch with a fresh controller.  The second
component is the token and location of the started fetch, if any. -/
def hookLoad {WD : Type} (st : HookState WD) (now : ℤ) :
    HookState WD × Option (ℕ × Location) :=
  match st.location with
  | none =>
    ({ st with data := none, loading := false, error := none }, none)
  | some loc =>
    let st1 :=
      match st.ref with
      | some t => { st with aborted := t :: st.aborted }
      | none => st
    let res := getCachedWeather st1.cache loc.id now
    let st2 := { st1 with cache := res.2 }
    match res.1 with
    | some cached =>
      ({ st2 with data := some cached, loading := false, error := none }, none)
    | none =>
      ({ st2 with loading := true, error := none, ref := some st2.nextTok,
                  nextTok := st2.nextTok + 1 }, some (st2.nextTok, loc))

/-- The continuation of `load` after `fetchWeather` settles: the `try`/`catch`
body guarded by `abortController.signal.aborted`, then the `finally` block
(the `loading` update equally guarded, the ref cleared unconditionally). -/
def hookSettle {WD : Type} (st : HookState WD) (tok : ℕ) (loc : Location)
    (outcome : FetchOutcome WD) (now : ℤ) : HookState WD :=
  match outcome with
  | .resolve result =>
    let st1 :=
      if tok ∈ st.aborted then st
      else { st with cache := setCachedWeather st.cache loc.id result now,
                     data := some result }
    let st2 := if tok ∈ st1.aborted then st1 else { st1 with loading := false }
    { st2 with ref := none }
  | .reject msg =>
    let st1 :=
      if tok ∈ st.aborted then st else { st with error := some msg }
    let st2 := if tok ∈ st1.aborted then st1 else { st1 with loading := false }
    { st2 with ref := none }

/-! ### Day bucketing (`hourlyDays` in `App.tsx`)

`dayKey` computes the local calendar date of a `Date` in the runtime's
timezone; it is abstracted here as an arbitrary key function `dk` on
epoch-millisecond timestamps, and the other metric fields of an hourly row
are abstracted as a payload. -/

/-- One hourly sample row: its timestamp and the remaining metric fields. -/
structure TimedPoint (α : Type) where
  time : ℤ
  payload : α
deriving DecidableEq

/-- `groups.get(key)?.push(point)` together with the `order` bookkeeping of
`hourlyDays`: append the point to the entry with its key, or create a new
entry at the end on first sight. -/
def appendAt {K : Type} [DecidableEq K] {α : Type} :
    List (K × List (TimedPoint α)) → K → TimedPoint α →
      List (K × List (TimedPoint α))
  | [], k, p => [(k, [p])]
  | (k', ps) :: rest, k, p =>
    if k' = k then (k', ps ++ [p]) :: rest else (k', ps) :: appendAt rest k p

/-- The grouping pass of `hourlyDays` over `data.hourly.time`. -/
def bucketFold {K : Type} [DecidableEq K] {α : Type} (dk : ℤ → K)
    (pts : List (TimedPoint α)) : List (K × List (TimedPoint α)) :=
  pts.foldl (fun acc p => appendAt acc (dk p.time) p) []

/-- `hourlyDays` of `App.tsx`: group the hourly points by calendar-day key in
first-occurrence order, then filter the group whose key equals the current
snapshot's day key to the points with `time >= currentTime`. -/
def hourlyDays {K : Type} [DecidableEq K] {α : Type} (dk : ℤ → K)
    (pts : List (TimedPoint α)) (currentTime : ℤ) :
    List (K × List (TimedPoint α)) :=
  let currentDayKey := dk currentTime
  (bucketFold dk pts).map fun g =>
    if g.1 = currentDayKey then
      (g.1, g.2.filter fun p => currentTime ≤ p.time)
    else g

/-- First-occurrence deduplication: the `order` array of `hourlyDays`. -/
def firstOccur {K : Type} [DecidableEq K] : List K → List K :=
  List.foldl (fun acc k => if k ∈ acc then acc else acc ++ [k]) []

/-! ### Circular mean wind direction (`averageDirection` in `App.tsx`) -/

/-- JavaScript `Math.trunc` (round toward zero) on a real. -/
noncomputable def jsTrunc (x : ℝ) : ℤ := if 0 ≤ x then ⌊x⌋ else ⌈x⌉

/-- The JavaScript `%` operator on numbers: `a - b * trunc(a / b)`. -/
noncomputable def jsFmod (a b : ℝ) : ℝ := a - b * (jsTrunc (a / b) : ℝ)

/-- `Math.atan2 y x`: the argument of `x + y·i`, in `(-π, π]`. -/
noncomputable def atan2 (y x : ℝ) : ℝ := Complex.arg ⟨x, y⟩

/-- `averageDirection` of `App.tsx`: accumulate unit vectors of the bearings
in degrees, average the components, take `atan2`, convert back to degrees
and normalize via `(degrees + 360) % 360`. -/
noncomputable def averageDirection (values : List ℝ) : Option ℝ :=
  if values = [] then none
  else
    let x := values.foldl (fun s v => s + Real.cos (v * Real.pi / 180)) 0
    let y := values.foldl (fun s v => s + Real.sin (v * Real.pi / 180)) 0
    let average := atan2 (y / values.length) (x / values.length)
    let degrees := average * 180 / Real.pi
    some (jsFmod (degrees + 360) 360)

end Mysky

namespace Mysky

/-! ## Claim C1: cache freshness -/

/-- **C1 counterexample.** The claim says `getCachedWeather` returns absent
whenever at least 10 minutes have elapsed; at exactly 10 minutes
(600000 ms elapsed) the code's strict `>` test returns the stored bundle. -/
theorem getCachedWeather_at_exact_boundary_not_absent :
    (getCachedWeather (setCachedWeather (emptyCache (α := ℕ)) "berlin" 42 0)
        "berlin" 600000).1 = some 42 ∧
      (getCachedWeather (setCachedWeather (emptyCache (α := ℕ)) "berlin" 42 0)
          "berlin" 600000).1 ≠ none := by
  constructor
  · rfl
  · simp [getCachedWeather, setCachedWeather, emptyCache, CACHE_DURATION]

/-- **C1 (amended).** After `setCachedWeather(id, bundle)` at time `t`,
`getCachedWeather(id)` at time `now` returns the stored bundle unchanged (and
leaves the map unchanged) whenever at most 10 minutes have elapsed, and
returns absent whenever strictly more than 10 minutes have elapsed; in the
stale case the entry is removed from the map as a side effect of the read,
and other keys are untouched. -/
theorem getCachedWeather_freshness {α : Type} (c : Cache α) (id : String)
    (d : α) (t now : ℤ) :
    (now - t ≤ CACHE_DURATION →
      getCachedWeather (setCachedWeather c id d t) id now =
        (some d, setCachedWeather c id d t)) ∧
    (now - t > CACHE_DURATION →
      (getCachedWeather (setCachedWeather c id d t) id now).1 = none ∧
      (getCachedWeather (setCachedWeather c id d t) id now).2 id = none ∧
      ∀ k, k ≠ id →
        (getCachedWeather (setCachedWeather c id d t) id now).2 k =
          setCachedWeather c id d t k) := by
  have hentry : setCachedWeather c id d t id = some ⟨d, t⟩ := by
    simp [setCachedWeather]
  constructor
  · intro hfresh
    simp [getCachedWeather, hentry, not_lt.mpr hfresh]
  · intro hstale
    simp only [getCachedWeather, hentry, if_pos hstale]
    refine ⟨by trivial, by simp [cacheDelete], ?_⟩
    intro k hk
    simp [cacheDelete, hk]

/-- **C1 witness.** -/
theorem getCachedWeather_freshness_witness :
    ((1 : ℤ) - 0 ≤ CACHE_DURATION) ∧
      getCachedWeather (setCachedWeather (emptyCache (α := ℕ)) "berlin" 42 0)
          "berlin" 1 =
        (some 42, setCachedWeather (emptyCache (α := ℕ)) "berlin" 42 0) :=
  ⟨by decide,
    (getCachedWeather_freshness (emptyCache (α := ℕ)) "berlin" 42 0 1).1
      (by decide)⟩

/-! ## Claim C4: precipitation-type resolution -/

/-- **C4.** `resolvePrecipitationType` selects the sub-type with the largest
nonzero amount among rain, showers and snowfall, resolving ties by the fixed
priority order rain, showers, snowfall; if all three sub-types are zero but
generic precipitation is positive it classifies as "mixed" with the generic
amount; if generic precipitation is also zero it classifies as "dry" with
amount 0.  In particular `{rain:0, showers:0, snowfall:0, precipitation:0}`
yields "dry", `{..., precipitation:2}` yields "mixed", and
`{rain:3, showers:1, snowfall:0, precipitation:4}` yields "rain". -/
theorem resolvePrecipitationType_spec (s : PrecipitationSource)
    (hr : 0 ≤ s.rain) (hs : 0 ≤ s.showers) (hn : 0 ≤ s.snowfall)
    (hp : 0 ≤ s.precipitation) :
    (s.rain = 0 → s.showers = 0 → s.snowfall = 0 → s.precipitation = 0 →
      resolvePrecipitationType s = precipDry) ∧
    (s.rain = 0 → s.showers = 0 → s.snowfall = 0 → 0 < s.precipitation →
      resolvePrecipitationType s =
        ⟨"mixed", "Mixed", "#ffd60a", s.precipitation⟩) ∧
    (0 < s.rain → s.showers ≤ s.rain → s.snowfall ≤ s.rain →
      resolvePrecipitationType s = ⟨"rain", "Rain", "#0a84ff", s.rain⟩) ∧
    (0 < s.showers → s.rain < s.showers → s.snowfall ≤ s.showers →
      resolvePrecipitationType s =
        ⟨"showers", "Showers", "#5ac8fa", s.showers⟩) ∧
    (0 < s.snowfall → s.rain < s.snowfall → s.showers < s.snowfall →
      resolvePrecipitationType s =
        ⟨"snowfall", "Snow", "#bf5af2", s.snowfall⟩) ∧
    resolvePrecipitationType ⟨0, 0, 0, 0⟩ = precipDry ∧
    resolvePrecipitationType ⟨2, 0, 0, 0⟩ =
      ⟨"mixed", "Mixed", "#ffd60a", 2⟩ ∧
    resolvePrecipitationType ⟨4, 3, 1, 0⟩ =
      ⟨"rain", "Rain", "#0a84ff", 3⟩ := by
  refine ⟨?_, ?_, ?_, ?_, ?_, by decide, by decide, by decide⟩
  · intro h1 h2 h3 h4
    simp only [resolvePrecipitationType, PRECIP_TYPE_CONFIG, List.foldl,
      precipDry, h1, h2, h3, h4]
    norm_num
  · intro h1 h2 h3 h4
    simp only [resolvePrecipitationType, PRECIP_TYPE_CONFIG, List.foldl,
      precipDry, h1, h2, h3]
    norm_num [h4]
  · intro h1 h2 h3
    simp only [resolvePrecipitationType, PRECIP_TYPE_CONFIG, List.foldl,
      precipDry]
    split_ifs <;> first | rfl | (exfalso; linarith)
  · intro h1 h2 h3
    simp only [resolvePrecipitationType, PRECIP_TYPE_CONFIG, List.foldl,
      precipDry]
    split_ifs <;> first | rfl | (exfalso; linarith)
  · intro h1 h2 h3
    simp only [resolvePrecipitationType, PRECIP_TYPE_CONFIG, List.foldl,
      precipDry]
    split_ifs <;> first | rfl | (exfalso; linarith)

/-- **C4 witness.** -/
theorem resolvePrecipitationType_spec_witness :
    ((0 : ℚ) ≤ 4 ∧ (0 : ℚ) < 3) ∧
      resolvePrecipitationType ⟨4, 3, 1, 0⟩ =
        ⟨"rain", "Rain", "#0a84ff", 3⟩ :=
  ⟨by norm_num,
    (resolvePrecipitationType_spec ⟨4, 3, 1, 0⟩ (by norm_num) (by norm_num)
        (by norm_num) (by norm_num)).2.2.1
      (by norm_num) (by norm_num) (by norm_num)⟩

/-! ## Claim C7: air-quality banding -/

theorem jsRound_def (q : ℚ) : jsRound q = ⌊q + 1 / 2⌋ := by
  rw [jsRound, Rat.floor_def', ← Rat.floor_def]

/-- **C7.** `formatAQI` and `getAQIColor` round the index to the nearest
integer and band it by the fixed ascending thresholds 20/40/60/80/100 into
the six ordered bands Good/Fair/Moderate/Poor/Very Poor/Extremely Poor, each
with its display color; boundary values map to the lower (inclusive) band;
an absent or NaN index yields the em-dash label and the neutral color; index
15 maps to "Good" and index 45 to "Moderate". -/
theorem formatAQI_banding :
    (∀ q : ℚ,
      (jsRound q ≤ 20 →
        formatAQI (some (.num q)) = toString (jsRound q) ++ " (Good)" ∧
        getAQIColor (some (.num q)) = "#74c476") ∧
      (20 < jsRound q → jsRound q ≤ 40 →
        formatAQI (some (.num q)) = toString (jsRound q) ++ " (Fair)" ∧
        getAQIColor (some (.num q)) = "#41ab5d") ∧
      (40 < jsRound q → jsRound q ≤ 60 →
        formatAQI (some (.num q)) = toString (jsRound q) ++ " (Moderate)" ∧
        getAQIColor (some (.num q)) = "#ffd54f") ∧
      (60 < jsRound q → jsRound q ≤ 80 →
        formatAQI (some (.num q)) = toString (jsRound q) ++ " (Poor)" ∧
        getAQIColor (some (.num q)) = "#ffb74d") ∧
      (80 < jsRound q → jsRound q ≤ 100 →
        formatAQI (some (.num q)) = toString (jsRound q) ++ " (Very Poor)" ∧
        getAQIColor (some (.num q)) = "#ff7043") ∧
      (100 < jsRound q →
        formatAQI (some (.num q)) = toString (jsRound q) ++ " (Extremely Poor)" ∧
        getAQIColor (some (.num q)) = "#d32f2f")) ∧
    formatAQI none = "—" ∧ formatAQI (some .nan) = "—" ∧
    getAQIColor none = "#8e8e93" ∧ getAQIColor (some .nan) = "#8e8e93" ∧
    formatAQI (some (.num 15)) = "15 (Good)" ∧
    formatAQI (some (.num 45)) = "45 (Moderate)" := by
  have h15 : jsRound (15 : ℚ) = 15 := by rw [jsRound_def]; norm_num
  have h45 : jsRound (45 : ℚ) = 45 := by rw [jsRound_def]; norm_num
  have e15 : formatAQI (some (.num 15)) = "15 (Good)" := by
    simp only [formatAQI, h15]
    decide
  have e45 : formatAQI (some (.num 45)) = "45 (Moderate)" := by
    simp only [formatAQI, h45]
    decide
  refine ⟨?_, rfl, rfl, rfl, rfl, e15, e45⟩
  intro q
  refine ⟨?_, ?_, ?_, ?_, ?_, ?_⟩ <;> intros <;>
    constructor <;> simp only [formatAQI, getAQIColor] <;>
    split_ifs <;> first | rfl | omega

/-- **C7 witness.** -/
theorem formatAQI_banding_witness :
    jsRound (15 : ℚ) ≤ 20 ∧
      formatAQI (some (.num 15)) = toString (jsRound (15 : ℚ)) ++ " (Good)" :=
  ⟨by rw [jsRound_def]; norm_num,
    ((formatAQI_banding.1 15).1 (by rw [jsRound_def]; norm_num)).1⟩

/-! ## Claim C6: chart scaling -/

theorem foldl_min_le_init (xs : List ℚ) (a : ℚ) : xs.foldl min a ≤ a := by
  induction xs generalizing a with
  | nil => exact le_refl a
  | cons x xs ih =>
    exact le_trans (ih (min a x)) (min_le_left a x)

theorem init_le_foldl_max (xs : List ℚ) (a : ℚ) : a ≤ xs.foldl max a := by
  induction xs generalizing a with
  | nil => exact le_refl a
  | cons x xs ih =>
    exact le_trans (le_max_left a x) (ih (max a x))

theorem listMin_le_listMax {vs : List ℚ} (h : vs ≠ []) :
    listMin vs ≤ listMax vs := by
  match vs with
  | [] => exact absurd rfl h
  | v :: tail =>
    exact le_trans (foldl_min_le_init tail v) (init_le_foldl_max tail v)

theorem foldl_min_all_zero (xs : List ℚ) (h : ∀ x ∈ xs, x = 0) :
    xs.foldl min (0 : ℚ) = 0 := by
  induction xs with
  | nil => rfl
  | cons x xs ih =>
    have hx : x = 0 := h x (List.mem_cons_self x xs)
    simp only [List.foldl, hx, min_self]
    exact ih fun y hy => h y (List.mem_cons_of_mem x hy)

theorem foldl_max_all_zero (xs : List ℚ) (h : ∀ x ∈ xs, x = 0) :
    xs.foldl max (0 : ℚ) = 0 := by
  induction xs with
  | nil => rfl
  | cons x xs ih =>
    have hx : x = 0 := h x (List.mem_cons_self x xs)
    simp only [List.foldl, hx, max_self]
    exact ih fun y hy => h y (List.mem_cons_of_mem x hy)

theorem chartScale_fst_lt_snd {vs : List ℚ} (h : vs ≠ []) :
    (chartScale vs).1 < (chartScale vs).2 := by
  have hab := listMin_le_listMax h
  simp only [chartScale]
  split_ifs with h1 h2 h3 h4 h5
  · norm_num
  · norm_num [h2]
  · obtain ⟨hc1, hc2⟩ := h4
    norm_num at hc1 ⊢
    linarith
  · norm_num
    linarith
  · obtain ⟨hc1, hc2⟩ := h5
    have hlt := lt_of_le_of_ne hab h1
    norm_num at hc1 ⊢
    nlinarith
  · have hlt := lt_of_le_of_ne hab h1
    norm_num
    nlinarith

/-- **C6 counterexample.** The claim says a flat series is widened
symmetrically by 1 unit whenever the flat value is nonzero; for the flat
value 1/2 the code clamps the widened lower bound -1/2 up to 0 (because the
raw minimum was non-negative), so the range is (0, 3/2), not (-1/2, 3/2). -/
theorem chartScale_flat_half_not_symmetric :
    chartScale [(1 : ℚ) / 2] = (0, 3 / 2) ∧
      chartScale [(1 : ℚ) / 2] ≠ ((1 : ℚ) / 2 - 1, (1 : ℚ) / 2 + 1) := by
  have h : chartScale [(1 : ℚ) / 2] = (0, 3 / 2) := by
    unfold chartScale listMin listMax
    norm_num
  refine ⟨h, ?_⟩
  rw [h]
  intro hc
  rw [Prod.mk.injEq] at hc
  norm_num at hc

/-- **C6 (amended).** For every non-empty point list: if the raw minimum
equals the raw maximum the scale range is widened by 1 unit on each side,
except that a flat value of exactly 0 sets the upper bound to 1; otherwise
both ends are padded by 10% of the raw range; in both branches a resulting
negative lower bound is clamped to 0 whenever the raw minimum was ≥ 0 (so a
flat value strictly between 0 and 1 yields the range (0, value + 1) rather
than a symmetric range).  The value-to-coordinate map never divides by zero,
clamps out-of-range values to [min, max] before mapping, and every produced
y-coordinate lies within the assigned vertical band; for all-equal-zero
input values every coordinate equals the band's bottom. -/
theorem chartScale_valueToY_spec (vs : List ℚ) (hne : vs ≠ []) :
    (chartScale vs).1 < (chartScale vs).2 ∧
    (listMin vs = listMax vs → listMin vs = 0 → chartScale vs = (0, 1)) ∧
    (listMin vs = listMax vs → listMin vs ≠ 0 →
      chartScale vs =
        (if listMin vs - 1 < 0 ∧ 0 ≤ listMin vs then 0 else listMin vs - 1,
          listMin vs + 1)) ∧
    (listMin vs ≠ listMax vs →
      chartScale vs =
        (if listMin vs - (listMax vs - listMin vs) * (1 / 10) < 0 ∧
            0 ≤ listMin vs
          then 0 else listMin vs - (listMax vs - listMin vs) * (1 / 10),
          listMax vs + (listMax vs - listMin vs) * (1 / 10))) ∧
    (∀ paddingTop chartHeight value : ℚ, 0 ≤ chartHeight →
      paddingTop ≤ valueToY vs paddingTop chartHeight value ∧
      valueToY vs paddingTop chartHeight value ≤ paddingTop + chartHeight) ∧
    ((∀ x ∈ vs, x = 0) →
      chartScale vs = (0, 1) ∧
      ∀ paddingTop chartHeight : ℚ, ∀ v ∈ vs,
        valueToY vs paddingTop chartHeight v = paddingTop + chartHeight) := by
  have hlt := chartScale_fst_lt_snd hne
  refine ⟨hlt, ?_, ?_, ?_, ?_, ?_⟩
  · intro hflat hzero
    have hb : listMax vs = 0 := hflat ▸ hzero
    simp [chartScale, hzero, hb]
  · intro hflat hzero
    have hb : listMax vs = listMin vs := hflat.symm
    simp only [chartScale, hb, if_pos rfl, if_neg hzero, ite_true]
    by_cases hc : listMin vs - 1 < 0 ∧ 0 ≤ listMin vs
    · rw [if_pos hc, if_pos hc]
    · rw [if_neg hc, if_neg hc]
  · intro hflat
    simp only [chartScale, if_neg hflat]
    by_cases hc :
        listMin vs - (listMax vs - listMin vs) * (1 / 10) < 0 ∧ 0 ≤ listMin vs
    · rw [if_pos hc, if_pos hc]
    · rw [if_neg hc, if_neg hc]
  · intro paddingTop chartHeight value hch
    set mn := (chartScale vs).1 with hmn
    set mx := (chartScale vs).2 with hmx
    have hdenom : mx - mn ≠ 0 := by
      rw [hmn, hmx]
      intro hc
      have := hlt
      rw [hmn, hmx] at this
      linarith
    have hpos : 0 < mx - mn := by
      rw [hmn, hmx]
      have := hlt
      linarith
    have hy : valueToY vs paddingTop chartHeight value =
        paddingTop + chartHeight -
          (min (max value mn) mx - mn) / (mx - mn) * chartHeight := by
      simp only [valueToY, ← hmn, ← hmx]
      rw [if_neg hdenom]
    have hmnmx : mn ≤ mx := by
      rw [hmn, hmx]
      exact le_of_lt hlt
    have hcl₁ : mn ≤ min (max value mn) mx :=
      le_min (le_max_right value mn) hmnmx
    have hcl₂ : min (max value mn) mx ≤ mx := min_le_right _ _
    have hr₁ : 0 ≤ (min (max value mn) mx - mn) / (mx - mn) :=
      div_nonneg (by linarith) (le_of_lt hpos)
    have hr₂ : (min (max value mn) mx - mn) / (mx - mn) ≤ 1 :=
      (div_le_one hpos).mpr (by linarith)
    constructor
    · rw [hy]
      nlinarith [mul_nonneg (sub_nonneg.mpr hr₂) hch, mul_nonneg hr₁ hch]
    · rw [hy]
      nlinarith [mul_nonneg (sub_nonneg.mpr hr₂) hch, mul_nonneg hr₁ hch]
  · intro hzero
    have ha : listMin vs = 0 := by
      match vs, hne with
      | v :: tail, _ =>
        have hv : v = 0 := hzero v (List.mem_cons_self v tail)
        simp only [listMin, hv]
        exact foldl_min_all_zero tail fun y hy =>
          hzero y (List.mem_cons_of_mem v hy)
    have hb : listMax vs = 0 := by
      match vs, hne with
      | v :: tail, _ =>
        have hv : v = 0 := hzero v (List.mem_cons_self v tail)
        simp only [listMax, hv]
        exact foldl_max_all_zero tail fun y hy =>
          hzero y (List.mem_cons_of_mem v hy)
    have hsc : chartScale vs = (0, 1) := by
      simp [chartScale, ha, hb]
    refine ⟨hsc, ?_⟩
    intro paddingTop chartHeight v hv
    have hv0 : v = 0 := hzero v hv
    simp only [valueToY, hsc, hv0]
    norm_num

/-- **C6 witness.** -/
theorem chartScale_valueToY_spec_witness :
    ((0 : ℚ) ∈ [(0 : ℚ)] → (0 : ℚ) = 0) ∧
      chartScale [(0 : ℚ)] = (0, 1) ∧
      valueToY [(0 : ℚ)] 24 160 0 = 24 + 160 := by
  have h := (chartScale_valueToY_spec [(0 : ℚ)] (by simp)).2.2.2.2.2
    (by simp)
  exact ⟨fun _ => rfl, h.1, h.2 24 160 0 (by simp)⟩

/-! ## Claim C9: degenerate-data conditions -/

theorem ratFloor_eq_intFloor (q : ℚ) : q.floor = ⌊q⌋ := by
  rw [Rat.floor_def', ← Rat.floor_def]

theorem jsAdd_nan_right (x : JsNum) : jsAdd x .nan = .nan := by
  cases x <;> rfl

theorem jsmin_nan_right (x : JsNum) : jsmin x .nan = .nan := by
  cases x <;> rfl

theorem jsmax_nan_right (x : JsNum) : jsmax x .nan = .nan := by
  cases x <;> rfl

theorem jsAdd_nan_left (x : JsNum) : jsAdd .nan x = .nan := by
  cases x <;> rfl

theorem jsmin_nan_left (x : JsNum) : jsmin .nan x = .nan := by
  cases x <;> rfl

theorem jsmax_nan_left (x : JsNum) : jsmax .nan x = .nan := by
  cases x <;> rfl

theorem foldl_jsAdd_from_nan (l : List JsNum) : l.foldl jsAdd .nan = .nan := by
  induction l with
  | nil => rfl
  | cons x t ih => rw [List.foldl_cons, jsAdd_nan_left]; exact ih

theorem foldl_jsmin_from_nan (l : List JsNum) : l.foldl jsmin .nan = .nan := by
  induction l with
  | nil => rfl
  | cons x t ih => rw [List.foldl_cons, jsmin_nan_left]; exact ih

theorem foldl_jsmax_from_nan (l : List JsNum) : l.foldl jsmax .nan = .nan := by
  induction l with
  | nil => rfl
  | cons x t ih => rw [List.foldl_cons, jsmax_nan_left]; exact ih

theorem toFixed1_zero : toFixed1 0 = "0.0" := by
  have h0 : (|(0 : ℚ)| * 10 + 1 / 2).floor = 0 := by
    rw [ratFloor_eq_intFloor]
    norm_num
  simp only [toFixed1, h0]
  decide

/-- **C9 counterexample.** For the empty day group the extremum aggregate
`Math.min(...[])` evaluates to `Infinity` and flows into the temperature
formatter, which renders "Infinity°C" — a defined value, but not the
sentinel the claim requires. -/
theorem emptyDayGroup_renders_infinity :
    formatTemperature (some (jsMinList [])) = "Infinity°C" ∧
      formatTemperature (some (jsMinList [])) ≠ "—" := by
  exact ⟨rfl, by decide⟩

/-- **C9 (amended).** Every aggregate and formatting function terminates on
degenerate input with a defined result: an absent air-quality index yields
the "unknown" sentinel (em-dash label, neutral color); an all-NaN metric
array propagates NaN through sum/min/max/average and every formatter renders
the em-dash sentinel; an empty day group yields `averageArray = 0` (rendered
"0.0°C" by the temperature formatter) while the extremum aggregates evaluate
to ±Infinity and render as "Infinity°C"-style strings rather than a
dedicated sentinel. -/
theorem degenerate_inputs_defined :
    (averageArray [] = .num 0 ∧
      formatTemperature (some (averageArray [])) = "0.0°C") ∧
    (jsMinList [] = .inf ∧ jsMaxList [] = .ninf ∧
      formatTemperature (some (jsMinList [])) = "Infinity°C") ∧
    (∀ l : List JsNum, l ≠ [] → (∀ x ∈ l, x = .nan) →
      averageArray l = .nan ∧ sumArray l = .nan ∧
      jsMinList l = .nan ∧ jsMaxList l = .nan ∧
      formatTemperature (some (averageArray l)) = "—" ∧
      formatPercentage (some (jsMaxList l)) = "—") ∧
    (formatAQI none = "—" ∧ getAQIColor none = "#8e8e93") := by
  refine ⟨⟨rfl, ?_⟩, ⟨rfl, rfl, rfl⟩, ?_, rfl, rfl⟩
  · show toFixed1 0 ++ "°C" = "0.0°C"
    rw [toFixed1_zero]
    decide
  · intro l hne hnan
    match l, hne with
    | x :: t, _ =>
      have hx : x = .nan := hnan x (List.mem_cons_self x t)
      have hsum : (x :: t).foldl jsAdd (.num 0) = .nan := by
        simp only [List.foldl, hx, jsAdd_nan_right, foldl_jsAdd_from_nan]
      have hmin : jsMinList (x :: t) = .nan := by
        simp only [jsMinList, List.foldl, hx, jsmin_nan_right,
          foldl_jsmin_from_nan]
      have hmax : jsMaxList (x :: t) = .nan := by
        simp only [jsMaxList, List.foldl, hx, jsmax_nan_right,
          foldl_jsmax_from_nan]
      have havg : averageArray (x :: t) = .nan := by
        simp only [averageArray, if_neg (List.cons_ne_nil x t), hsum]
        rfl
      refine ⟨havg, ?_, hmin, hmax, ?_, ?_⟩
      · simp only [sumArray, hsum]
      · rw [havg]
        decide
      · rw [hmax]
        decide

/-- **C9 witness.** -/
theorem degenerate_inputs_defined_witness :
    (([JsNum.nan] : List JsNum) ≠ [] ∧ (JsNum.nan : JsNum) = .nan) ∧
      averageArray [JsNum.nan] = .nan ∧
      formatTemperature (some (averageArray [JsNum.nan])) = "—" :=
  ⟨⟨by simp, rfl⟩,
    (degenerate_inputs_defined.2.2.1 [JsNum.nan] (by simp)
        (by simp)).1,
    (degenerate_inputs_defined.2.2.1 [JsNum.nan] (by simp)
        (by simp)).2.2.2.2.1⟩

/-! ## Claim C10: weather-code lookup totality -/

/-- **C10.** For every numeric code `getWeatherCondition` returns a defined
condition: codes present in the WMO table return that table entry, and any
other code returns the fallback condition carrying the original code with
description "Unknown"; consequently `formatWeatherCode` is defined for every
input code. -/
theorem getWeatherCondition_total (code : ℚ) :
    (∀ c, lookupWeatherCode code = some c → getWeatherCondition code = c) ∧
    (lookupWeatherCode code = none →
      getWeatherCondition code = ⟨code, "Unknown", "❓"⟩) ∧
    formatWeatherCode code =
      (getWeatherCondition code).icon ++ " " ++
        (getWeatherCondition code).description ++ " (" ++ toString code ++ ")" := by
  refine ⟨?_, ?_, rfl⟩
  · intro c hc
    simp [getWeatherCondition, hc]
  · intro hc
    simp [getWeatherCondition, hc]

/-- **C10 witness**: code 0 is in the table; code 7 is not and falls back. -/
theorem getWeatherCondition_total_witness :
    (lookupWeatherCode 0 = some ⟨0, "Clear sky", "☀️"⟩ ∧
      getWeatherCondition 0 = ⟨0, "Clear sky", "☀️"⟩) ∧
    (lookupWeatherCode 7 = none ∧
      getWeatherCondition 7 = ⟨7, "Unknown", "❓"⟩) :=
  ⟨⟨by decide, (getWeatherCondition_total 0).1 _ (by decide)⟩,
    ⟨by decide, (getWeatherCondition_total 7).2.1 (by decide)⟩⟩

/-! ## Claims C2 and C8: the `useWeather` fetch lifecycle -/

theorem hookSetLocation_some {WD : Type} (st : HookState WD) (L : Location) :
    hookSetLocation st (some L) =
      { st with location := some L, loading := true, ref := none,
                aborted :=
                  match st.ref with
                  | some t => t :: st.aborted
                  | none => st.aborted } := by
  obtain ⟨d, l, e, loc, r, ab, n, c⟩ := st
  cases r <;> rfl

theorem hookLoad_started_inv {WD : Type} (st s' : HookState WD) (now : ℤ)
    (tok : ℕ) (loc : Location) (hr : st.ref = none)
    (h : hookLoad st now = (s', some (tok, loc))) :
    tok = st.nextTok ∧ st.location = some loc ∧
      s' = { st with cache := (getCachedWeather st.cache loc.id now).2,
                     loading := true, error := none, ref := some st.nextTok,
                     nextTok := st.nextTok + 1 } := by
  cases hloc : st.location with
  | none =>
    rw [hookLoad] at h
    simp [hloc] at h
  | some loc' =>
    rw [hookLoad] at h
    simp only [hloc, hr] at h
    rcases hgc : getCachedWeather st.cache loc'.id now with ⟨o, c'⟩
    rw [hgc] at h
    cases o with
    | some cached => simp at h
    | none =>
      simp only [Prod.mk.injEq, Option.some.injEq] at h
      obtain ⟨hs, htok, hloc2⟩ := h
      subst hloc2
      refine ⟨htok.symm, rfl, ?_⟩
      rw [← hs, hgc]

theorem hookSettle_aborted {WD : Type} (st : HookState WD) (tok : ℕ)
    (loc : Location) (o : FetchOutcome WD) (now : ℤ) (h : tok ∈ st.aborted) :
    hookSettle st tok loc o now = { st with ref := none } := by
  cases o <;> simp [hookSettle, h]

theorem hookSettle_resolve_commit {WD : Type} (st : HookState WD) (tok : ℕ)
    (loc : Location) (r : WD) (now : ℤ) (h : tok ∉ st.aborted) :
    hookSettle st tok loc (.resolve r) now =
      { st with cache := setCachedWeather st.cache loc.id r now,
                data := some r, loading := false, ref := none } := by
  simp [hookSettle, h]

theorem hookSettle_reject_commit {WD : Type} (st : HookState WD) (tok : ℕ)
    (loc : Location) (msg : String) (now : ℤ) (h : tok ∉ st.aborted) :
    hookSettle st tok loc (.reject msg) now =
      { st with error := some msg, loading := false, ref := none } := by
  simp [hookSettle, h]

/-- **C8.** When a fetch rejects and its cancellation token was not
triggered, the hook sets the error message, sets loading to false, and
leaves the data field at its previous value. -/
theorem useWeather_failed_keeps_data {WD : Type} (st : HookState WD)
    (tok : ℕ) (loc : Location) (msg : String) (now : ℤ)
    (h : tok ∉ st.aborted) :
    (hookSettle st tok loc (.reject msg) now).error = some msg ∧
    (hookSettle st tok loc (.reject msg) now).loading = false ∧
    (hookSettle st tok loc (.reject msg) now).data = st.data ∧
    (hookSettle st tok loc (.reject msg) now).cache = st.cache := by
  rw [hookSettle_reject_commit st tok loc msg now h]
  exact ⟨rfl, rfl, rfl, rfl⟩

/-- Core of the cancellation argument, starting from the state just after
`setLocation(L1)` has run (loading, no pending controller, abort list
`ab1`). -/
theorem useWeather_cancellation_core {WD : Type} (d0 : Option WD)
    (e0 : Option String) (loc0 : Option Location) (L1 L2 : Location)
    (ab1 : List ℕ) (n0 : ℕ) (c0 : Cache WD) (now1 now2 now3 now4 : ℤ)
    (o1 o2 : FetchOutcome WD) (s2 s3 s4 : HookState WD) (t1 t2 : ℕ)
    (hab : ∀ t ∈ ab1, t < n0)
    (h2 : hookLoad (⟨d0, true, e0, some L1, none, ab1, n0, c0⟩ :
      HookState WD) now1 = (s2, some (t1, L1)))
    (h3 : hookSetLocation s2 (some L2) = s3)
    (h4 : hookLoad s3 now2 = (s4, some (t2, L2))) :
    t1 ∈ s3.aborted ∧
    (∀ sf : HookState WD,
      sf = hookSettle (hookSettle s4 t1 L1 o1 now3) t2 L2 o2 now4 ∨
        sf = hookSettle (hookSettle s4 t2 L2 o2 now3) t1 L1 o1 now4 →
      match o2 with
      | .resolve r => sf.data = some r ∧ sf.loading = false ∧ sf.error = none
      | .reject m =>
          sf.data = d0 ∧ sf.loading = false ∧ sf.error = some m) := by
  have hr1 : (⟨d0, true, e0, some L1, none, ab1, n0, c0⟩ :
      HookState WD).ref = none := rfl
  obtain ⟨ht1, hloc1, hs2⟩ := hookLoad_started_inv _ _ _ _ _ hr1 h2
  have ht1n : t1 = n0 := ht1
  subst ht1n
  have e2 : s2 = ⟨d0, true, none, some L1, some t1, ab1, t1 + 1,
      (getCachedWeather c0 L1.id now1).2⟩ := by
    rw [hs2]
  have e3 : s3 = ⟨d0, true, none, some L2, none, t1 :: ab1, t1 + 1,
      (getCachedWeather c0 L1.id now1).2⟩ := by
    rw [← h3, e2]
    rfl
  have hr3 : s3.ref = none := by rw [e3]
  obtain ⟨ht2, hloc2, hs4⟩ := hookLoad_started_inv _ _ _ _ _ hr3 h4
  have ht2n : t2 = t1 + 1 := by rw [ht2, e3]
  subst ht2n
  have e4 : s4 = ⟨d0, true, none, some L2, some (t1 + 1), t1 :: ab1, t1 + 2,
      (getCachedWeather (getCachedWeather c0 L1.id now1).2 L2.id now2).2⟩ := by
    rw [hs4, e3]
  have hnotin : (t1 + 1) ∉ t1 :: ab1 := by
    intro hm
    rcases List.mem_cons.mp hm with hm | hm
    · omega
    · exact absurd (hab _ hm) (by omega)
  refine ⟨?_, ?_⟩
  · rw [e3]
    exact List.mem_cons_self _ _
  · rintro sf (rfl | rfl)
    · have hmem : t1 ∈ s4.aborted := by
        rw [e4]
        exact List.mem_cons_self _ _
      rw [hookSettle_aborted _ _ _ _ _ hmem]
      have hnm : (t1 + 1) ∉ ({ s4 with ref := none } :
          HookState WD).aborted := by
        rw [e4]
        exact hnotin
      cases o2 with
      | resolve r =>
        rw [hookSettle_resolve_commit _ _ _ _ _ hnm]
        exact ⟨rfl, rfl, by rw [e4]⟩
      | reject m =>
        rw [hookSettle_reject_commit _ _ _ _ _ hnm]
        exact ⟨by rw [e4], rfl, rfl⟩
    · have hnm : (t1 + 1) ∉ s4.aborted := by
        rw [e4]
        exact hnotin
      cases o2 with
      | resolve r =>
        rw [hookSettle_resolve_commit _ _ _ _ _ hnm, hookSettle_aborted]
        · exact ⟨rfl, rfl, by rw [e4]⟩
        · rw [e4]
          exact List.mem_cons_self _ _
      | reject m =>
        rw [hookSettle_reject_commit _ _ _ _ _ hnm, hookSettle_aborted]
        · exact ⟨by rw [e4], rfl, rfl⟩
        · rw [e4]
          exact List.mem_cons_self _ _

/-- **C2.** Calling `setLocation(L1)` and then `setLocation(L2)` before the
first fetch settles aborts the first fetch's cancellation token; a fetch
whose token was triggered never commits its resolution or rejection to the
data, error or loading state; and — in whichever order the two fetches
settle — the final state reflects only the second fetch's outcome. -/
theorem useWeather_cancellation {WD : Type} (st0 : HookState WD)
    (L1 L2 : Location) (now1 now2 now3 now4 : ℤ) (o1 o2 : FetchOutcome WD)
    (s1 s2 s3 s4 : HookState WD) (t1 t2 : ℕ)
    (habinv : ∀ t ∈ st0.aborted, t < st0.nextTok)
    (hrefinv : ∀ t, st0.ref = some t → t < st0.nextTok)
    (h1 : hookSetLocation st0 (some L1) = s1)
    (h2 : hookLoad s1 now1 = (s2, some (t1, L1)))
    (h3 : hookSetLocation s2 (some L2) = s3)
    (h4 : hookLoad s3 now2 = (s4, some (t2, L2))) :
    t1 ∈ s3.aborted ∧
    (∀ (st : HookState WD) (tok : ℕ) (loc : Location) (o : FetchOutcome WD)
        (now : ℤ), tok ∈ st.aborted →
      (hookSettle st tok loc o now).data = st.data ∧
      (hookSettle st tok loc o now).error = st.error ∧
      (hookSettle st tok loc o now).loading = st.loading) ∧
    (∀ sf : HookState WD,
      sf = hookSettle (hookSettle s4 t1 L1 o1 now3) t2 L2 o2 now4 ∨
        sf = hookSettle (hookSettle s4 t2 L2 o2 now3) t1 L1 o1 now4 →
      match o2 with
      | .resolve r => sf.data = some r ∧ sf.loading = false ∧ sf.error = none
      | .reject m =>
          sf.data = st0.data ∧ sf.loading = false ∧ sf.error = some m) := by
  obtain ⟨d0, l0, e0, loc0, r0, ab0, n0, c0⟩ := st0
  subst h1
  have hgen : ∀ (st : HookState WD) (tok : ℕ) (loc : Location)
      (o : FetchOutcome WD) (now : ℤ), tok ∈ st.aborted →
      (hookSettle st tok loc o now).data = st.data ∧
      (hookSettle st tok loc o now).error = st.error ∧
      (hookSettle st tok loc o now).loading = st.loading := by
    intro st tok loc o now hmem
    rw [hookSettle_aborted _ _ _ _ _ hmem]
    exact ⟨rfl, rfl, rfl⟩
  cases r0 with
  | none =>
    obtain ⟨hg1, hg3⟩ :=
      useWeather_cancellation_core d0 e0 loc0 L1 L2 ab0 n0 c0
        now1 now2 now3 now4 o1 o2 s2 s3 s4 t1 t2 habinv h2 h3 h4
    exact ⟨hg1, hgen, hg3⟩
  | some rt =>
    have hab : ∀ t ∈ rt :: ab0, t < n0 := by
      intro t ht
      rcases List.mem_cons.mp ht with ht | ht
      · subst ht
        exact hrefinv t rfl
      · exact habinv t ht
    obtain ⟨hg1, hg3⟩ :=
      useWeather_cancellation_core d0 e0 loc0 L1 L2 (rt :: ab0) n0 c0
        now1 now2 now3 now4 o1 o2 s2 s3 s4 t1 t2 hab h2 h3 h4
    exact ⟨hg1, hgen, hg3⟩

/-- **C2 witness.** -/
theorem useWeather_cancellation_witness :
    (hookLoad
        (⟨none, true, none, some ⟨"l1", "A", 0, 0, "UTC"⟩, none, [], 0,
          emptyCache⟩ : HookState ℕ) 0 =
      (⟨none, true, none, some ⟨"l1", "A", 0, 0, "UTC"⟩, some 0, [], 1,
          emptyCache⟩, some (0, ⟨"l1", "A", 0, 0, "UTC"⟩))) ∧
    (0 : ℕ) ∈ (⟨none, true, none, some ⟨"l2", "B", 1, 1, "UTC"⟩, none, [0], 1,
        emptyCache⟩ : HookState ℕ).aborted ∧
    (hookSettle
        (hookSettle
          (⟨none, true, none, some ⟨"l2", "B", 1, 1, "UTC"⟩, some 1, [0], 2,
            emptyCache⟩ : HookState ℕ)
          0 ⟨"l1", "A", 0, 0, "UTC"⟩ (.resolve 5) 0)
        1 ⟨"l2", "B", 1, 1, "UTC"⟩ (.resolve 7) 0).data = some 7 := by
  have h := useWeather_cancellation
    (⟨none, false, none, none, none, [], 0, emptyCache⟩ : HookState ℕ)
    ⟨"l1", "A", 0, 0, "UTC"⟩ ⟨"l2", "B", 1, 1, "UTC"⟩ 0 0 0 0
    (.resolve 5) (.resolve 7)
    ⟨none, true, none, some ⟨"l1", "A", 0, 0, "UTC"⟩, none, [], 0, emptyCache⟩
    ⟨none, true, none, some ⟨"l1", "A", 0, 0, "UTC"⟩, some 0, [], 1,
      emptyCache⟩
    ⟨none, true, none, some ⟨"l2", "B", 1, 1, "UTC"⟩, none, [0], 1,
      emptyCache⟩
    ⟨none, true, none, some ⟨"l2", "B", 1, 1, "UTC"⟩, some 1, [0], 2,
      emptyCache⟩
    0 1 (by simp) (by simp) rfl rfl rfl rfl
  exact ⟨rfl, h.1, (h.2.2 _ (Or.inl rfl)).1⟩

/-! ## Claim C3: day bucketing with now-truncation -/

theorem mem_foldl_firstOccur {K : Type} [DecidableEq K] (ks : List K)
    (acc : List K) (x : K) :
    x ∈ ks.foldl (fun acc k => if k ∈ acc then acc else acc ++ [k]) acc ↔
      x ∈ acc ∨ x ∈ ks := by
  induction ks generalizing acc with
  | nil => simp
  | cons k ks ih =>
    simp only [List.foldl_cons, ih, List.mem_cons]
    by_cases hk : k ∈ acc
    · simp only [if_pos hk]
      constructor
      · tauto
      · rintro (h | h | h)
        · tauto
        · subst h; tauto
        · tauto
    · simp only [if_neg hk, List.mem_append, List.mem_singleton]
      tauto

theorem mem_firstOccur {K : Type} [DecidableEq K] (ks : List K) (x : K) :
    x ∈ firstOccur ks ↔ x ∈ ks := by
  rw [firstOccur, mem_foldl_firstOccur]
  simp

theorem nodup_foldl_firstOccur {K : Type} [DecidableEq K] (ks : List K)
    (acc : List K) (hacc : acc.Nodup) :
    (ks.foldl (fun acc k => if k ∈ acc then acc else acc ++ [k]) acc).Nodup := by
  induction ks generalizing acc with
  | nil => exact hacc
  | cons k ks ih =>
    simp only [List.foldl_cons]
    by_cases hk : k ∈ acc
    · rw [if_pos hk]
      exact ih acc hacc
    · rw [if_neg hk]
      refine ih _ ?_
      simpa [List.nodup_append] using ⟨hacc, hk⟩

theorem nodup_firstOccur {K : Type} [DecidableEq K] (ks : List K) :
    (firstOccur ks).Nodup :=
  nodup_foldl_firstOccur ks [] List.nodup_nil

theorem firstOccur_snoc {K : Type} [DecidableEq K] (ks : List K) (k : K) :
    firstOccur (ks ++ [k]) =
      if k ∈ ks then firstOccur ks else firstOccur ks ++ [k] := by
  rw [firstOccur, List.foldl_append]
  simp only [List.foldl_cons, List.foldl_nil]
  rw [← firstOccur]
  by_cases h : k ∈ ks
  · rw [if_pos ((mem_firstOccur ks k).mpr h), if_pos h]
  · rw [if_neg (fun hc => h ((mem_firstOccur ks k).mp hc)), if_neg h]

theorem appendAt_map {K : Type} [DecidableEq K] {α : Type} (ks : List K)
    (f : K → List (TimedPoint α)) (k : K) (p : TimedPoint α)
    (hnd : ks.Nodup) :
    appendAt (ks.map fun x => (x, f x)) k p =
      if k ∈ ks then
        ks.map fun x => (x, if x = k then f x ++ [p] else f x)
      else (ks.map fun x => (x, f x)) ++ [(k, [p])] := by
  induction ks with
  | nil => simp [appendAt]
  | cons a ks ih =>
    obtain ⟨hak, hnd2⟩ := List.nodup_cons.mp hnd
    simp only [List.map_cons, appendAt]
    by_cases h : a = k
    · subst h
      rw [if_pos rfl, if_pos (List.mem_cons_self a ks)]
      simp only [List.map_cons, if_pos rfl, List.cons.injEq, true_and]
      constructor
      · rfl
      · apply List.map_congr_left
        intro x hx
        rw [if_neg]
        intro hxa
        exact hak (hxa ▸ hx)
    · rw [if_neg h, ih hnd2]
      by_cases hk : k ∈ ks
      · rw [if_pos hk, if_pos (List.mem_cons_of_mem a hk)]
        simp only [List.map_cons, List.cons.injEq, true_and]
        constructor
        · rw [if_neg h]
        · trivial
      · rw [if_neg hk,
          if_neg (by
            simp only [List.mem_cons]
            push_neg
            exact ⟨fun hc => h hc.symm, hk⟩)]
        simp

theorem filter_eq_nil_of_not_mem_keys {K : Type} [DecidableEq K] {α : Type}
    (dk : ℤ → K) (l : List (TimedPoint α)) (k : K)
    (h : k ∉ l.map fun p => dk p.time) :
    l.filter (fun p => dk p.time = k) = [] := by
  rw [List.filter_eq_nil_iff]
  intro p hp
  simp only [decide_eq_true_eq]
  intro hc
  exact h (List.mem_map.mpr ⟨p, hp, hc⟩)

theorem bucketFold_eq {K : Type} [DecidableEq K] {α : Type} (dk : ℤ → K)
    (pts : List (TimedPoint α)) :
    bucketFold dk pts =
      (firstOccur (pts.map fun p => dk p.time)).map
        fun k => (k, pts.filter fun p => dk p.time = k) := by
  induction pts using List.reverseRecOn with
  | nil => rfl
  | append_singleton l p ih =>
    rw [bucketFold, List.foldl_append, ← bucketFold, ih]
    simp only [List.foldl_cons, List.foldl_nil]
    rw [appendAt_map _ _ _ _ (nodup_firstOccur _)]
    simp only [List.map_append, List.map_cons, List.map_nil]
    rw [firstOccur_snoc]
    by_cases h : dk p.time ∈ l.map fun q => dk q.time
    · rw [if_pos ((mem_firstOccur _ _).mpr h), if_pos h]
      apply List.map_congr_left
      intro x hx
      simp only [Prod.mk.injEq, true_and]
      rw [List.filter_append]
      by_cases hxk : x = dk p.time
      · subst hxk
        simp
      · rw [if_neg hxk]
        have hnilf : (List.filter (fun q => decide (dk q.time = x)) [p]) = [] := by
          simp only [List.filter, decide_eq_true_eq]
          rw [decide_eq_false (fun hc => hxk hc.symm)]
        rw [hnilf, List.append_nil]
    · rw [if_neg (fun hc => h ((mem_firstOccur _ _).mp hc)), if_neg h,
        List.map_append]
      congr 1
      · apply List.map_congr_left
        intro x hx
        have hxk : x ≠ dk p.time := by
          intro hc
          exact h (hc ▸ (mem_firstOccur _ _).mp hx)
        simp only [Prod.mk.injEq, true_and]
        rw [List.filter_append]
        have hnilf : (List.filter (fun q => decide (dk q.time = x)) [p]) = [] := by
          simp only [List.filter]
          rw [decide_eq_false (fun hc => hxk hc.symm)]
        rw [hnilf, List.append_nil]
      · simp only [List.map_cons, List.map_nil, List.cons.injEq, and_true]
        rw [List.filter_append]
        rw [filter_eq_nil_of_not_mem_keys dk l _ h]
        simp

/-- **C3.** `hourlyDays` produces the day groups in order of first occurrence
of their calendar-day key; every point is placed in the group of its calendar
date in original order; the group whose key equals the current snapshot's
day key contains exactly those of its points with timestamp ≥ the current
time (order preserved), every other group's point list is left intact, and a
group emptied by this filtering remains in the list (its key still appears in
the key sequence). -/
theorem hourlyDays_spec {K : Type} [DecidableEq K] {α : Type} (dk : ℤ → K)
    (pts : List (TimedPoint α)) (ct : ℤ) :
    (hourlyDays dk pts ct).map Prod.fst =
      firstOccur (pts.map fun p => dk p.time) ∧
    ∀ k g, (k, g) ∈ hourlyDays dk pts ct →
      (k ≠ dk ct → g = pts.filter fun p => dk p.time = k) ∧
      (k = dk ct →
        g = (pts.filter fun p => dk p.time = k).filter
          fun p => ct ≤ p.time) := by
  constructor
  · rw [hourlyDays, bucketFold_eq]
    simp only [List.map_map]
    refine (List.map_congr_left ?_).trans (List.map_id _)
    intro x hx
    simp only [Function.comp]
    by_cases h : x = dk ct <;> simp [h]
  · intro k g hmem
    rw [hourlyDays, bucketFold_eq, List.map_map] at hmem
    obtain ⟨x, hx, heq⟩ := List.mem_map.mp hmem
    simp only [Function.comp] at heq
    by_cases h : x = dk ct
    · rw [if_pos h] at heq
      obtain ⟨hxk, hg⟩ := Prod.ext_iff.mp heq
      subst hxk
      refine ⟨fun hne => absurd h hne, fun _ => ?_⟩
      exact hg.symm
    · rw [if_neg h] at heq
      obtain ⟨hxk, hg⟩ := Prod.ext_iff.mp heq
      subst hxk
      exact ⟨fun _ => hg.symm, fun hc => absurd hc h⟩

/-- **C3 witness**: three points over two days, "now" at the second point;
the current-day group keeps exactly the points at or after "now". -/
theorem hourlyDays_spec_witness :
    ((0 : ℤ), [(⟨20, 1⟩ : TimedPoint ℕ)]) ∈
        hourlyDays (fun t => t / 24)
          [(⟨10, 0⟩ : TimedPoint ℕ), ⟨20, 1⟩, ⟨30, 2⟩] 20 ∧
      [(⟨20, 1⟩ : TimedPoint ℕ)] =
        (([(⟨10, 0⟩ : TimedPoint ℕ), ⟨20, 1⟩, ⟨30, 2⟩].filter
            fun p => p.time / 24 = 0).filter fun p => (20 : ℤ) ≤ p.time) :=
  ⟨by decide,
    ((hourlyDays_spec (fun t => t / 24)
          [(⟨10, 0⟩ : TimedPoint ℕ), ⟨20, 1⟩, ⟨30, 2⟩] 20).2
        0 [⟨20, 1⟩] (by decide)).2 (by decide)⟩

/-! ## Claim C5: circular mean wind direction -/

theorem jsFmod_nonneg_lt (a b : ℝ) (hb : 0 < b) (ha : 0 ≤ a) :
    0 ≤ jsFmod a b ∧ jsFmod a b < b := by
  have hdiv : 0 ≤ a / b := div_nonneg ha hb.le
  have key : jsFmod a b = b * Int.fract (a / b) := by
    rw [jsFmod, jsTrunc, if_pos hdiv, Int.fract, mul_sub, mul_comm b (a / b),
      div_mul_cancel₀ a hb.ne']
  rw [key]
  constructor
  · exact mul_nonneg hb.le (Int.fract_nonneg _)
  · calc b * Int.fract (a / b) < b * 1 :=
        (mul_lt_mul_left hb).mpr (Int.fract_lt_one _)
    _ = b := mul_one b

theorem atan2_mem_Ioc (y x : ℝ) :
    atan2 y x ∈ Set.Ioc (-Real.pi) Real.pi :=
  Complex.arg_mem_Ioc _

theorem norm_deg_bounds (θ : ℝ) (hθ : θ ∈ Set.Ioc (-Real.pi) Real.pi) :
    0 ≤ jsFmod (θ * 180 / Real.pi + 360) 360 ∧
      jsFmod (θ * 180 / Real.pi + 360) 360 < 360 := by
  have hπ := Real.pi_pos
  obtain ⟨h1, h2⟩ := hθ
  have hgt : -180 < θ * 180 / Real.pi := by
    rw [lt_div_iff₀ hπ]
    nlinarith
  exact jsFmod_nonneg_lt _ _ (by norm_num) (by linarith)

/-- **C5.** For every non-empty list of bearings, `averageDirection` (the
unit-vector average followed by `atan2`, degree conversion and
`(d + 360) % 360`) returns a value in `[0, 360)`; and
`averageDirection [350, 10]` is exactly `0`, not `180`. -/
theorem averageDirection_spec :
    (∀ vs : List ℝ, vs ≠ [] →
      ∃ d, averageDirection vs = some d ∧ 0 ≤ d ∧ d < 360) ∧
    averageDirection [350, 10] = some 0 := by
  constructor
  · intro vs hne
    simp only [averageDirection, if_neg hne]
    refine ⟨_, rfl, ?_⟩
    exact norm_deg_bounds _ (atan2_mem_Ioc _ _)
  · have hπ := Real.pi_pos
    have hne : ([350, 10] : List ℝ) ≠ [] := by simp
    simp only [averageDirection, if_neg hne, List.foldl_cons, List.foldl_nil,
      List.length_cons, List.length_nil]
    have ha : (350 : ℝ) * Real.pi / 180 = 2 * Real.pi - 10 * Real.pi / 180 := by
      ring
    have hcos : Real.cos ((350 : ℝ) * Real.pi / 180) =
        Real.cos ((10 : ℝ) * Real.pi / 180) := by
      rw [ha, Real.cos_sub, Real.cos_two_pi, Real.sin_two_pi]
      ring
    have hsin : Real.sin ((350 : ℝ) * Real.pi / 180) =
        -Real.sin ((10 : ℝ) * Real.pi / 180) := by
      rw [ha, Real.sin_sub, Real.cos_two_pi, Real.sin_two_pi]
      ring
    rw [hcos, hsin]
    have hc : 0 < Real.cos ((10 : ℝ) * Real.pi / 180) := by
      apply Real.cos_pos_of_mem_Ioo
      constructor
      · nlinarith
      · nlinarith
    have hy : (0 + -Real.sin ((10 : ℝ) * Real.pi / 180) +
        Real.sin ((10 : ℝ) * Real.pi / 180)) / ((0 + 1 + 1 : ℕ) : ℝ) = 0 := by
      push_cast
      ring
    have hx : (0 + Real.cos ((10 : ℝ) * Real.pi / 180) +
        Real.cos ((10 : ℝ) * Real.pi / 180)) / ((0 + 1 + 1 : ℕ) : ℝ) =
        Real.cos ((10 : ℝ) * Real.pi / 180) := by
      push_cast
      ring
    rw [hy, hx]
    have hatan : atan2 0 (Real.cos ((10 : ℝ) * Real.pi / 180)) = 0 := by
      rw [atan2]
      have hmk : (⟨Real.cos ((10 : ℝ) * Real.pi / 180), 0⟩ : ℂ) =
          ((Real.cos ((10 : ℝ) * Real.pi / 180) : ℝ) : ℂ) :=
        Complex.ext rfl rfl
      rw [hmk]
      exact Complex.arg_ofReal_of_nonneg hc.le
    rw [hatan]
    have h360 : (0 : ℝ) * 180 / Real.pi + 360 = 360 := by
      rw [zero_mul, zero_div, zero_add]
    rw [h360]
    have hfm : jsFmod 360 360 = 0 := by
      rw [jsFmod, jsTrunc]
      norm_num
    rw [hfm]

/-- **C5 witness.** -/
theorem averageDirection_spec_witness :
    ([350, 10] : List ℝ) ≠ [] ∧
      ∃ d, averageDirection [350, 10] = some d ∧ 0 ≤ d ∧ d < 360 :=
  ⟨by simp, averageDirection_spec.1 [350, 10] (by simp)⟩

/-- **C8 witness.** -/
theorem useWeather_failed_keeps_data_witness :
    (0 : ℕ) ∉ ([] : List ℕ) ∧
      (hookSettle
          (⟨some 7, true, none, none, some 0, [], 1, emptyCache⟩ :
            HookState ℕ)
          0 ⟨"b", "Berlin", 13, 52, "Europe/Berlin"⟩
          (.reject "network") 9).data = some 7 :=
  ⟨by simp,
    (useWeather_failed_keeps_data
      (⟨some 7, true, none, none, some 0, [], 1, emptyCache⟩ : HookState ℕ)
      0 ⟨"b", "Berlin", 13, 52, "Europe/Berlin"⟩ "network" 9
      (by simp)).2.2.1⟩

end Mysky
